import Mathlib

/-!
Shallow embedding of the expense-dashboard component
(`src/src/components/ExpenseDashboard.tsx`).

Conventions of the embedding:
* JS numbers are modelled as exact rationals (`ℚ`); binary floating-point
  representation error is out of scope.  The one place where IEEE special
  values matter (the division inside `projectedSpending`) is modelled by the
  dedicated type `JSNum` with `nan` / `posInf` / `negInf` constructors and
  IEEE-style division and multiplication (signed zero is not modelled, as no
  negative zero can arise from the expressions involved).
* The result of the JS `Number(string)` coercion is modelled by `BNum`
  (`num q` for a finite numeric result, `nan` for a NaN result).
* The browser's key-value store is modelled by `Store`: the expense slot is
  `absent`, `malformed` (a stored string whose `JSON.parse`/processing throws),
  or a parsed list of raw records; the budget slot holds the `Number`-coercion
  result of the stored string, if any.
* `JSON.stringify` followed by `JSON.parse` is the identity on the structured
  records involved (finite numbers, strings), so `save` writes the structured
  values directly.
* JS `Array.prototype.sort` is stable (ES2019); `List.insertionSort` is also
  stable, and two stable sorts agree on any total preorder comparator, so the
  hydration sort `(a, b) => b.date.localeCompare(a.date)` is modelled by
  `insertionSort` over `dateDescOrder` (lexicographic string comparison, which
  agrees with `localeCompare` on `YYYY-MM-DD` date strings).
-/

namespace ExpenseDashboard

/-- The 9 fixed expense categories (`ExpenseCategory` in the source). -/
inductive Category where
  | Housing
  | Food
  | Transportation
  | Utilities
  | Health
  | Entertainment
  | Subscriptions
  | Savings
  | Other
deriving DecidableEq, Repr

/-- The `CATEGORY_PRESETS` constant from the source: the fixed list of all 9 categories. -/
def CATEGORY_PRESETS : List Category :=
  [.Housing, .Food, .Transportation, .Utilities, .Health,
   .Entertainment, .Subscriptions, .Savings, .Other]

/-- The `Expense` record type from the source. -/
structure Expense where
  id : String
  description : String
  category : Category
  amount : ℚ
  date : String
  notes : Option String
deriving DecidableEq, Repr

/-- Result of the JS `Number(string)` coercion: a finite number or NaN. -/
inductive BNum where
  | num (q : ℚ)
  | nan
deriving DecidableEq, Repr

/-- A JS number including the IEEE special values that can arise from
division: finite, `Infinity`, `-Infinity`, `NaN`. -/
inductive JSNum where
  | num (q : ℚ)
  | posInf
  | negInf
  | nan
deriving DecidableEq, Repr

/-- IEEE-style division on `JSNum` (signed zero not modelled). -/
def jsDiv : JSNum → JSNum → JSNum
  | .nan, _ => .nan
  | _, .nan => .nan
  | .num a, .num b =>
      if b ≠ 0 then .num (a / b)
      else if 0 < a then .posInf
      else if a < 0 then .negInf
      else .nan
  | .num _, .posInf => .num 0
  | .num _, .negInf => .num 0
  | .posInf, .num b => if 0 ≤ b then .posInf else .negInf
  | .negInf, .num b => if 0 ≤ b then .negInf else .posInf
  | .posInf, .posInf => .nan
  | .posInf, .negInf => .nan
  | .negInf, .posInf => .nan
  | .negInf, .negInf => .nan

/-- IEEE-style multiplication on `JSNum` (signed zero not modelled). -/
def jsMul : JSNum → JSNum → JSNum
  | .nan, _ => .nan
  | _, .nan => .nan
  | .num a, .num b => .num (a * b)
  | .num a, .posInf => if 0 < a then .posInf else if a < 0 then .negInf else .nan
  | .num a, .negInf => if 0 < a then .negInf else if a < 0 then .posInf else .nan
  | .posInf, .num b => if 0 < b then .posInf else if b < 0 then .negInf else .nan
  | .negInf, .num b => if 0 < b then .negInf else if b < 0 then .posInf else .nan
  | .posInf, .posInf => .posInf
  | .posInf, .negInf => .negInf
  | .negInf, .posInf => .negInf
  | .negInf, .negInf => .posInf

/-- Rounding as in `Number(x.toFixed(2))` on a finite value: round to 2 fractional digits,
nearest, ties towards the larger value (the ES `toFixed` rule). -/
def round2 (q : ℚ) : ℚ := (⌊q * 100 + 1 / 2⌋ : ℚ) / 100

/-- The `totalSpent` memo: `filteredExpenses.reduce((sum, current) => sum + current.amount, 0)`. -/
def totalSpent (es : List Expense) : ℚ := es.foldl (fun s e => s + e.amount) 0

/-- One step of the `categoryTotals` accumulation:
`totals[item.category] += item.amount`. -/
def bumpCategory (t : Category → ℚ) (e : Expense) : Category → ℚ :=
  fun c => if c = e.category then t c + e.amount else t c

/-- The `categoryTotals` memo: start from all-zero totals, then
`totals[item.category] += item.amount` for each filtered item. -/
def categoryTotals (es : List Expense) : Category → ℚ :=
  es.foldl bumpCategory (fun _ => 0)

/-- The `budgetUtilization` derivation: `budget === 0 ? 0 : Math.min((totalSpent / budget) * 100, 100)`. -/
def budgetUtilization (budget t : ℚ) : ℚ :=
  if budget = 0 then 0 else min ((t / budget) * 100) 100

/-- The `filteredExpenses` memo: `expenses.filter((item) => item.date.startsWith(selectedMonth))`. -/
def filterByMonth (es : List Expense) (selectedMonth : String) : List Expense :=
  es.filter (fun e => e.date.startsWith selectedMonth)

/-- The parsed form of the `YYYY-MM` selected-month key (`monthDate` in the
source, with `month = monthIndex + 1`). -/
structure MonthKey where
  year : ℕ
  month : ℕ
deriving DecidableEq, Repr

/-- The real current calendar date, as observed through
`getFullYear` / `getMonth` / `getDate` (`month` is 1-based here,
`day = getDate() ∈ [1, 31]`). -/
structure Today where
  year : ℕ
  month : ℕ
  day : ℕ
deriving DecidableEq, Repr

/-- Gregorian leap-year rule, as implemented by the JS `Date` object. -/
def isLeapYear (y : ℕ) : Bool := y % 4 = 0 && (y % 100 ≠ 0 || y % 400 = 0)

/-- Evaluation of `new Date(year, month, 0).getDate()`: the number of days in month `m`
(1-based) of year `y`, per the JS `Date` calendar.  Months outside `1..12`
do not arise from well-formed `YYYY-MM` keys; the catch-all keeps the
function total. -/
def daysInMonth (y m : ℕ) : ℕ :=
  match m with
  | 1 => 31
  | 2 => if isLeapYear y then 29 else 28
  | 3 => 31
  | 4 => 30
  | 5 => 31
  | 6 => 30
  | 7 => 31
  | 8 => 31
  | 9 => 30
  | 10 => 31
  | 11 => 30
  | 12 => 31
  | _ => 30

/-- The `daysElapsedInMonth` memo: today's day-of-month for the current month,
otherwise the total number of days in the selected month. -/
def daysElapsedInMonth (t : Today) (k : MonthKey) : ℕ :=
  if t.year = k.year ∧ t.month = k.month then t.day else daysInMonth k.year k.month

/-- The `projectedSpending` memo on its raw inputs: `0` when the filtered list is
empty, otherwise `(totalSpent / daysElapsedInMonth) * daysInMonth` computed
with JS number semantics. -/
def projectedSpending (len : ℕ) (ts dE dIM : ℚ) : JSNum :=
  if len = 0 then .num 0 else jsMul (jsDiv (.num ts) (.num dE)) (.num dIM)

/-- The `projectedSpending` memo as the component computes it, from the filtered
expense list, today's date and the selected month. -/
def projectedSpendingOf (t : Today) (k : MonthKey) (filtered : List Expense) : JSNum :=
  projectedSpending filtered.length (totalSpent filtered)
    (daysElapsedInMonth t k) (daysInMonth k.year k.month)

/-- A record as it sits in the expense slot of the durable store, before the
hydration filter: `amount` may fail to be a number (`amountNum = none`) and
`id` may be empty (the falsy case of `Boolean(item.id)`). -/
structure RawExpense where
  id : String
  description : String
  category : Category
  amountNum : Option ℚ
  date : String
  notes : Option String
deriving DecidableEq, Repr

/-- The expense slot of the durable store: missing key, a string whose
parsing/processing throws, or a parsed list of raw records. -/
inductive StoredExpenses where
  | absent
  | malformed
  | records (l : List RawExpense)
deriving DecidableEq, Repr

/-- The durable key-value store: the two slots used by the component. -/
structure Store where
  expenses : StoredExpenses
  budget : Option BNum
deriving DecidableEq, Repr

/-- The hydration filter and cast:
`typeof item.amount === "number" && Boolean(item.id)`; a record passing the
filter is used as an `Expense` as-is. -/
def hydrateExpense (r : RawExpense) : Option Expense :=
  match r.amountNum with
  | none => none
  | some q =>
      if r.id = "" then none
      else some ⟨r.id, r.description, r.category, q, r.date, r.notes⟩

/-- Lexicographic comparison of character sequences: the order
`localeCompare` induces on `YYYY-MM-DD` date strings. -/
def lexLe : List Char → List Char → Bool
  | [], _ => true
  | _ :: _, [] => false
  | a :: as, b :: bs => if a < b then true else if b < a then false else lexLe as bs

/-- Comparison `a.localeCompare(b) <= 0` for date strings. -/
def dateLe (a b : String) : Bool := lexLe a.data b.data

/-- The hydration sort order: `(a, b) => b.date.localeCompare(a.date)`,
i.e. descending by date string. -/
def dateDescOrder (a b : Expense) : Prop := dateLe b.date a.date = true

instance : DecidableRel dateDescOrder :=
  fun a b => inferInstanceAs (Decidable (dateLe b.date a.date = true))

theorem lexLe_total : ∀ x y : List Char, lexLe x y = true ∨ lexLe y x = true := by
  intro x
  induction x with
  | nil => intro y; left; rfl
  | cons a as ih =>
      intro y
      cases y with
      | nil => right; rfl
      | cons b bs =>
          rcases lt_trichotomy a b with h | h | h
          · left; simp [lexLe, h]
          · subst h
            rcases ih bs with h2 | h2
            · left; simp [lexLe, lt_irrefl, h2]
            · right; simp [lexLe, lt_irrefl, h2]
          · right; simp [lexLe, h]

theorem lexLe_trans : ∀ x y z : List Char,
    lexLe x y = true → lexLe y z = true → lexLe x z = true := by
  intro x
  induction x with
  | nil => intro y z _ _; rfl
  | cons a as ih =>
      intro y z hxy hyz
      cases y with
      | nil => simp [lexLe] at hxy
      | cons b bs =>
          cases z with
          | nil => simp [lexLe] at hyz
          | cons c cs =>
              by_cases hab : a < b
              · by_cases hbc : b < c
                · simp [lexLe, lt_trans hab hbc]
                · by_cases hcb : c < b
                  · simp [lexLe, hbc, hcb] at hyz
                  · have : b = c := le_antisymm (not_lt.mp hcb) (not_lt.mp hbc)
                    subst this
                    simp [lexLe, hab]
              · by_cases hba : b < a
                · simp [lexLe, hab, hba] at hxy
                · have : a = b := le_antisymm (not_lt.mp hba) (not_lt.mp hab)
                  subst this
                  simp only [lexLe, lt_irrefl, if_false] at hxy
                  by_cases hac : a < c
                  · simp [lexLe, hac]
                  · by_cases hca : c < a
                    · simp [lexLe, hac, hca] at hyz
                    · have : a = c := le_antisymm (not_lt.mp hca) (not_lt.mp hac)
                      subst this
                      simp only [lexLe, lt_irrefl, if_false] at hyz ⊢
                      exact ih bs cs hxy hyz

instance : IsTotal Expense dateDescOrder :=
  ⟨fun a b => lexLe_total b.date.data a.date.data⟩

instance : IsTrans Expense dateDescOrder :=
  ⟨fun _ b _ hab hbc => lexLe_trans _ b.date.data _ hbc hab⟩

/-- The stable descending-by-date sort applied during hydration. -/
def sortByDateDesc (es : List Expense) : List Expense :=
  List.insertionSort dateDescOrder es

/-- The component's in-memory state: the expense collection, the budget
scalar and the `isReady` hydration flag. -/
structure AppState where
  expenses : List Expense
  budget : ℚ
  isReady : Bool
deriving DecidableEq, Repr

/-- The `useState` initial values: empty collection, budget 2000, not ready. -/
def initState : AppState := { expenses := [], budget := 2000, isReady := false }

/-- The budget half of hydration: keep the current budget when the stored
value is absent or coerces to NaN, otherwise adopt the stored number. -/
def applyBudget (current : ℚ) : Option BNum → ℚ
  | none => current
  | some .nan => current
  | some (.num q) => q

/-- The hydration `useEffect`: read both slots inside one `try`.  A throwing
expense slot skips the budget update too (the `catch` swallows the error);
the `finally` always sets `isReady`. -/
def hydrateStep (st : AppState) (s : Store) : AppState :=
  match s.expenses with
  | .malformed => { st with isReady := true }
  | .absent => { st with budget := applyBudget st.budget s.budget, isReady := true }
  | .records l =>
      { st with
        expenses := sortByDateDesc (l.filterMap hydrateExpense),
        budget := applyBudget st.budget s.budget,
        isReady := true }

/-- The `load` operation: the hydrated collection and budget starting from the initial
state (empty collection, default budget 2000).  Total — never raises. -/
def load (s : Store) : List Expense × ℚ :=
  ((hydrateStep initState s).expenses, (hydrateStep initState s).budget)

/-- The stored image of a genuine `Expense` (what serialization writes). -/
def toRaw (e : Expense) : RawExpense :=
  ⟨e.id, e.description, e.category, some e.amount, e.date, e.notes⟩

/-- The `save` operation: the two save effects' writes for a given collection and budget. -/
def save (es : List Expense) (b : ℚ) : Store :=
  { expenses := .records (es.map toRaw), budget := some (.num b) }

/-- ASCII whitespace, the fragment of the JS `trim()` whitespace class that
can occur in the inputs considered here. -/
def isWhite (c : Char) : Bool := c = ' ' || c = '\t' || c = '\n' || c = '\r'

/-- The JS `String.prototype.trim()`: strip leading and trailing whitespace. -/
def jsTrim (s : String) : String :=
  ⟨((s.data.dropWhile isWhite).reverse.dropWhile isWhite).reverse⟩

/-- Outcome of the submit handler. -/
inductive SubmitResult where
  | errorEmptyDescription
  | errorInvalidAmount
  | added (e : Expense)
deriving DecidableEq, Repr

/-- The check `Number.isNaN(parsedAmount) || parsedAmount <= 0`. -/
def amountInvalid : BNum → Bool
  | .nan => true
  | .num q => decide (q ≤ 0)

/-- The `handleSubmit` handler: validate description then amount; on success build the
normalized expense and prepend it (`amountNum` is the `Number(amount)`
coercion of the amount text, `newId` the value of `crypto.randomUUID()`). -/
def handleSubmit (st : AppState) (description : String) (amountNum : BNum)
    (category : Category) (date : String) (notes : String) (newId : String) :
    SubmitResult × AppState :=
  if jsTrim description = "" then (.errorEmptyDescription, st)
  else
    match amountNum with
    | .nan => (.errorInvalidAmount, st)
    | .num q =>
        if q ≤ 0 then (.errorInvalidAmount, st)
        else
          let e : Expense :=
            { id := newId
              description := jsTrim description
              category := category
              amount := round2 q
              date := date
              notes := if jsTrim notes = "" then none else some (jsTrim notes) }
          (.added e, { st with expenses := e :: st.expenses })

/-- The `handleDelete` handler: `prev.filter((item) => item.id !== id)`. -/
def handleDelete (es : List Expense) (id : String) : List Expense :=
  es.filter (fun e => e.id != id)

/-- The `handleBudgetChange` handler: `Number(value.toFixed(2))`. -/
def handleBudgetChange (v : ℚ) : ℚ := round2 v

/-- The discrete events of one session: the hydration effect, the two save
effects, and the user actions. -/
inductive Event where
  | hydrate
  | saveExpenses
  | saveBudget
  | addExpense (description : String) (amountNum : BNum) (category : Category)
      (date : String) (notes : String) (newId : String)
  | removeExpense (id : String)
  | setBudget (v : ℚ)
deriving DecidableEq, Repr

/-- One event's effect on the in-memory state and the durable store.  The
save effects bail out (`if (!isReady) return`) while `isReady` is false; only
hydration sets `isReady`. -/
def step : AppState × Store → Event → AppState × Store
  | (st, s), .hydrate => (hydrateStep st s, s)
  | (st, s), .saveExpenses =>
      if st.isReady then (st, { s with expenses := .records (st.expenses.map toRaw) })
      else (st, s)
  | (st, s), .saveBudget =>
      if st.isReady then (st, { s with budget := some (.num st.budget) })
      else (st, s)
  | (st, s), .addExpense d a c dt n newId => ((handleSubmit st d a c dt n newId).2, s)
  | (st, s), .removeExpense rid => ({ st with expenses := handleDelete st.expenses rid }, s)
  | (st, s), .setBudget v => ({ st with budget := handleBudgetChange v }, s)

/-- Run a session: fold the events over an initial state and store. -/
def run (init : AppState × Store) (t : List Event) : AppState × Store :=
  t.foldl step init

/-- The spec's Expense Store invariant: strictly positive amounts and
pairwise distinct ids. -/
def StoreInvariant (es : List Expense) : Prop :=
  (∀ e ∈ es, 0 < e.amount) ∧ es.Pairwise (fun a b => a.id ≠ b.id)

instance (es : List Expense) : Decidable (StoreInvariant es) := by
  unfold StoreInvariant
  infer_instance

/-! ### Helper lemmas -/

theorem totalSpent_eq_sum (es : List Expense) :
    totalSpent es = (es.map fun e => e.amount).sum := by
  rw [totalSpent, List.sum_eq_foldl, List.foldl_map]

theorem totalSpent_nil : totalSpent [] = 0 := rfl

theorem totalSpent_cons (e : Expense) (es : List Expense) :
    totalSpent (e :: es) = e.amount + totalSpent es := by
  rw [totalSpent_eq_sum, totalSpent_eq_sum, List.map_cons, List.sum_cons]

theorem totalSpent_nonneg (es : List Expense) (h : ∀ e ∈ es, 0 ≤ e.amount) :
    0 ≤ totalSpent es := by
  rw [totalSpent_eq_sum]
  refine List.sum_nonneg ?_
  intro x hx
  rcases List.mem_map.mp hx with ⟨e, he, rfl⟩
  exact h e he

theorem categoryTotals_foldl (es : List Expense) :
    ∀ (t : Category → ℚ) (c : Category),
      es.foldl bumpCategory t c = t c + categoryTotals es c := by
  induction es with
  | nil => intro t c; simp [categoryTotals]
  | cons e es ih =>
      intro t c
      have h1 : categoryTotals (e :: es) c
          = bumpCategory (fun _ => 0) e c + categoryTotals es c := by
        simp only [categoryTotals, List.foldl_cons]
        exact ih (bumpCategory (fun _ => 0) e) c
      rw [List.foldl_cons, ih (bumpCategory t e) c, h1]
      simp only [bumpCategory]
      by_cases h : c = e.category
      · simp [h]
        ring
      · simp [h]

theorem categoryTotals_cons (e : Expense) (es : List Expense) (c : Category) :
    categoryTotals (e :: es) c
      = (if c = e.category then e.amount else 0) + categoryTotals es c := by
  have h1 : categoryTotals (e :: es) c
      = bumpCategory (fun _ => 0) e c + categoryTotals es c := by
    simp only [categoryTotals, List.foldl_cons]
    exact categoryTotals_foldl es (bumpCategory (fun _ => 0) e) c
  rw [h1]
  simp only [bumpCategory]
  by_cases h : c = e.category <;> simp [h]

theorem categoryTotals_eq_filter (es : List Expense) (c : Category) :
    categoryTotals es c
      = totalSpent (es.filter fun e => decide (e.category = c)) := by
  induction es with
  | nil => simp [categoryTotals, totalSpent]
  | cons e es ih =>
      rw [categoryTotals_cons, ih]
      by_cases h : e.category = c
      · rw [List.filter_cons_of_pos (by simp [h]), totalSpent_cons, if_pos h.symm]
      · rw [List.filter_cons_of_neg (by simp [h]),
          if_neg fun hc => h hc.symm, zero_add]

theorem categoryTotals_sum (es : List Expense) :
    (CATEGORY_PRESETS.map (categoryTotals es)).sum = totalSpent es := by
  induction es with
  | nil => simp [CATEGORY_PRESETS, categoryTotals, totalSpent]
  | cons e es ih =>
      simp only [CATEGORY_PRESETS, List.map_cons, List.map_nil, List.sum_cons,
        List.sum_nil, categoryTotals_cons, totalSpent_cons] at ih ⊢
      cases e.category <;> (simp; linarith)

theorem sortByDateDesc_perm (es : List Expense) :
    List.Perm (sortByDateDesc es) es :=
  List.perm_insertionSort dateDescOrder es

theorem sortByDateDesc_sorted (es : List Expense) :
    List.Sorted dateDescOrder (sortByDateDesc es) :=
  List.sorted_insertionSort dateDescOrder es

theorem hydrateExpense_toRaw (e : Expense) (h : e.id ≠ "") :
    hydrateExpense (toRaw e) = some e := by
  simp [hydrateExpense, toRaw, h]

theorem filterMap_hydrate_toRaw (es : List Expense) (h : ∀ e ∈ es, e.id ≠ "") :
    (es.map toRaw).filterMap hydrateExpense = es := by
  induction es with
  | nil => rfl
  | cons e es ih =>
      rw [List.map_cons, List.filterMap_cons,
        hydrateExpense_toRaw e (h e (List.mem_cons_self e es)),
        ih fun x hx => h x (List.mem_cons_of_mem e hx)]

theorem hydrateExpense_eq_some_iff (r : RawExpense) (e : Expense) :
    hydrateExpense r = some e
      ↔ ∃ q, r.amountNum = some q ∧ r.id ≠ ""
          ∧ e = ⟨r.id, r.description, r.category, q, r.date, r.notes⟩ := by
  cases hr : r.amountNum with
  | none => simp [hydrateExpense, hr]
  | some q =>
      by_cases hid : r.id = "" <;>
        simp [hydrateExpense, hr, hid, eq_comm]

theorem round2_small_positive : (0 : ℚ) < 1 / 250 ∧ round2 (1 / 250) = 0 := by
  norm_num [round2]

theorem handleSubmit_eq_added (st : AppState) (d : String) (q : ℚ)
    (c : Category) (dt n newId : String)
    (hd : jsTrim d ≠ "") (hq : ¬ q ≤ 0) :
    handleSubmit st d (.num q) c dt n newId
      = (.added ⟨newId, jsTrim d, c, round2 q, dt,
            if jsTrim n = "" then none else some (jsTrim n)⟩,
         { st with expenses :=
             ⟨newId, jsTrim d, c, round2 q, dt,
              if jsTrim n = "" then none else some (jsTrim n)⟩ :: st.expenses }) := by
  unfold handleSubmit
  simp [hd, hq]

theorem handleSubmit_isReady (st : AppState) (d : String) (a : BNum)
    (c : Category) (dt n newId : String) :
    ((handleSubmit st d a c dt n newId).2).isReady = st.isReady := by
  unfold handleSubmit
  by_cases hd : jsTrim d = ""
  · simp [hd]
  · cases a with
    | nan => simp [hd]
    | num q => by_cases hq : q ≤ 0 <;> simp [hd, hq]

theorem run_no_hydrate (t : List Event) :
    ∀ (st : AppState) (s : Store), st.isReady = false → Event.hydrate ∉ t →
      (run (st, s) t).2 = s ∧ (run (st, s) t).1.isReady = false := by
  induction t with
  | nil => intro st s h _; exact ⟨rfl, h⟩
  | cons ev t ih =>
      intro st s h hn
      have hnt : Event.hydrate ∉ t := fun ht => hn (List.mem_cons_of_mem _ ht)
      have hrun : run (st, s) (ev :: t) = run (step (st, s) ev) t := rfl
      cases ev with
      | hydrate => exact absurd (List.mem_cons_self _ _) hn
      | saveExpenses =>
          rw [hrun]
          have hstep : step (st, s) .saveExpenses = (st, s) := by simp [step, h]
          rw [hstep]
          exact ih st s h hnt
      | saveBudget =>
          rw [hrun]
          have hstep : step (st, s) .saveBudget = (st, s) := by simp [step, h]
          rw [hstep]
          exact ih st s h hnt
      | addExpense d a c dt n newId =>
          rw [hrun]
          refine ih _ s ?_ hnt
          rw [handleSubmit_isReady]
          exact h
      | removeExpense rid =>
          rw [hrun]
          exact ih _ s h hnt
      | setBudget v =>
          rw [hrun]
          exact ih _ s h hnt

/-! ### Claims -/

/-- C7: for every month-filtered sequence of expense records the category
totals cover exactly the 9 fixed categories (`CATEGORY_PRESETS` has 9
distinct entries and every category is one of them, so every category key is
present even when its total is zero), each category's total is the sum of
the amounts of that category, and the 9 totals sum exactly to `totalSpent`
of the same sequence (exact rational arithmetic, hence within the claimed
0.01 floating tolerance). -/
theorem claim_C7_categoryTotals (es : List Expense) :
    CATEGORY_PRESETS.length = 9
    ∧ (∀ c : Category, c ∈ CATEGORY_PRESETS)
    ∧ CATEGORY_PRESETS.Nodup
    ∧ (∀ c : Category,
        categoryTotals es c
          = totalSpent (es.filter fun e => decide (e.category = c)))
    ∧ (CATEGORY_PRESETS.map (categoryTotals es)).sum = totalSpent es := by
  refine ⟨rfl, ?_, by decide, categoryTotals_eq_filter es, categoryTotals_sum es⟩
  intro c
  cases c <;> decide

/-- C10: immediately after hydration the in-memory expense collection is
sorted descending by date string, for every durable-store content: any two
consecutive hydrated records satisfy `dateDescOrder` (the later record's
date is ≤ the earlier one's).  Moreover hydration re-sorts rather than
preserving the stored order: the result is a permutation of the records
that pass the hydration filter, in date-descending order. -/
theorem claim_C10_load_sorted (s : Store) :
    List.Pairwise dateDescOrder (load s).1
    ∧ (∀ l, s.expenses = .records l →
        List.Perm (load s).1 (l.filterMap hydrateExpense)) := by
  cases hs : s.expenses with
  | absent =>
      refine ⟨by simp [load, hydrateStep, hs, initState], ?_⟩
      intro l hl
      cases hl
  | malformed =>
      refine ⟨by simp [load, hydrateStep, hs, initState], ?_⟩
      intro l hl
      cases hl
  | records l0 =>
      constructor
      · simp only [load, hydrateStep, hs]
        exact sortByDateDesc_sorted _
      · intro l hl
        injection hl with h
        subst h
        simp only [load, hydrateStep, hs]
        exact sortByDateDesc_perm _

/-- C4: `budgetUtilization` equals 0 when the budget is 0 and
`min((totalSpent/budget)·100, 100)` otherwise; and for every non-negative
budget and every total arising from a collection of positive amounts (the
store's documented data model) the result lies within [0, 100]. -/
theorem claim_C4_budgetUtilization (b : ℚ) (es : List Expense)
    (hb : 0 ≤ b) (hes : ∀ e ∈ es, 0 < e.amount) :
    budgetUtilization b (totalSpent es)
        = (if b = 0 then 0 else min (totalSpent es / b * 100) 100)
    ∧ 0 ≤ budgetUtilization b (totalSpent es)
    ∧ budgetUtilization b (totalSpent es) ≤ 100 := by
  have ht : 0 ≤ totalSpent es := totalSpent_nonneg es fun e he => le_of_lt (hes e he)
  refine ⟨rfl, ?_, ?_⟩
  · unfold budgetUtilization
    split
    · exact le_refl 0
    · next hb0 =>
        have hbpos : 0 < b := lt_of_le_of_ne hb (Ne.symm hb0)
        have h1 : 0 ≤ totalSpent es / b * 100 :=
          mul_nonneg (div_nonneg ht (le_of_lt hbpos)) (by norm_num)
        exact le_min h1 (by norm_num)
  · unfold budgetUtilization
    split
    · norm_num
    · exact min_le_right _ _

/-- C4 witness: a concrete instantiation of `claim_C4_budgetUtilization`
(budget 2000, one expense of 1500). -/
theorem claim_C4_witness :
    budgetUtilization 2000
        (totalSpent [⟨"a", "rent", .Housing, 1500, "2024-06-01", none⟩])
        = (if (2000 : ℚ) = 0 then 0
            else min (totalSpent [⟨"a", "rent", .Housing, 1500, "2024-06-01", none⟩]
                        / 2000 * 100) 100)
    ∧ 0 ≤ budgetUtilization 2000
        (totalSpent [⟨"a", "rent", .Housing, 1500, "2024-06-01", none⟩])
    ∧ budgetUtilization 2000
        (totalSpent [⟨"a", "rent", .Housing, 1500, "2024-06-01", none⟩]) ≤ 100 :=
  claim_C4_budgetUtilization 2000 _ (by norm_num) (by decide)

/-- C2 counterexample: saving two well-formed records whose dates are in
ascending order and loading them back returns them re-sorted (most recent
first), so the loaded collection differs from the saved one in record
order — the round-trip is not the identity on ordered collections. -/
theorem claim_C2_counterexample :
    (load (save [⟨"a", "rent", .Housing, 1500, "2024-06-01", none⟩,
                 ⟨"b", "coffee", .Food, 5, "2024-06-02", none⟩] 2000)).1
      ≠ [⟨"a", "rent", .Housing, 1500, "2024-06-01", none⟩,
         ⟨"b", "coffee", .Food, 5, "2024-06-02", none⟩] := by
  decide

/-- C2 amended: for every collection of well-formed records (non-empty ids)
and every budget, save-then-load returns the budget exactly, and returns the
saved records — each with all its fields intact — as a permutation of the
saved collection, re-sorted descending by date (so the order is preserved
exactly when the saved collection was already date-descending). -/
theorem claim_C2_roundtrip (es : List Expense) (b : ℚ)
    (h : ∀ e ∈ es, e.id ≠ "") :
    load (save es b) = (sortByDateDesc es, b)
    ∧ List.Perm (load (save es b)).1 es := by
  have h1 : (es.map toRaw).filterMap hydrateExpense = es :=
    filterMap_hydrate_toRaw es h
  constructor
  · simp [load, save, hydrateStep, h1, applyBudget]
  · simp only [load, save, hydrateStep, h1]
    exact sortByDateDesc_perm es

/-- C2 witness: a concrete instantiation of `claim_C2_roundtrip` on a
single-record collection. -/
theorem claim_C2_witness :
    load (save [⟨"a", "rent", .Housing, 1500, "2024-06-01", none⟩] 2000)
        = (sortByDateDesc [⟨"a", "rent", .Housing, 1500, "2024-06-01", none⟩], 2000)
    ∧ List.Perm
        (load (save [⟨"a", "rent", .Housing, 1500, "2024-06-01", none⟩] 2000)).1
        [⟨"a", "rent", .Housing, 1500, "2024-06-01", none⟩] :=
  claim_C2_roundtrip _ 2000 (by decide)

theorem one_le_daysInMonth (y m : ℕ) : 1 ≤ daysInMonth y m := by
  unfold daysInMonth
  split
  all_goals first
    | (split <;> norm_num)
    | norm_num

/-- C1 counterexample: the code has no guard for `daysElapsedInMonth = 0` —
at a non-empty filtered list, total 5, zero elapsed days and a 30-day month,
`projectedSpending` evaluates to `Infinity` (IEEE division of a positive
total by zero), not 0 as the claim's edge case asserts. -/
theorem claim_C1_counterexample :
    projectedSpending 1 5 0 30 ≠ JSNum.num 0 := by
  decide

/-- C1 amended: the zero-elapsed-days edge case is unreachable — for every
real current date (day-of-month ≥ 1) and every selected month,
`daysElapsedInMonth` is at least 1 — and `projectedSpending` always yields
the finite value `0` on an empty filtered sequence and
`(totalSpent / daysElapsed) * daysInMonth` otherwise; no division by zero,
`NaN` or `Infinity` arises in any reachable computation. -/
theorem claim_C1_projected (t : Today) (k : MonthKey) (filtered : List Expense)
    (hday : 1 ≤ t.day) :
    1 ≤ daysElapsedInMonth t k
    ∧ projectedSpendingOf t k filtered
        = .num (if filtered.length = 0 then 0
            else totalSpent filtered / (daysElapsedInMonth t k : ℚ)
                  * (daysInMonth k.year k.month : ℚ)) := by
  have hd : 1 ≤ daysElapsedInMonth t k := by
    unfold daysElapsedInMonth
    split
    · exact hday
    · exact one_le_daysInMonth k.year k.month
  refine ⟨hd, ?_⟩
  unfold projectedSpendingOf projectedSpending
  by_cases hlen : filtered.length = 0
  · simp [hlen]
  · have hne : ((daysElapsedInMonth t k : ℚ)) ≠ 0 :=
      Nat.cast_ne_zero.mpr (by omega)
    simp [hlen, jsDiv, jsMul, hne]

/-- C1 witness: a concrete instantiation of `claim_C1_projected`
(October 2025 viewed on 2025-10-11, empty filtered sequence). -/
theorem claim_C1_witness :
    1 ≤ daysElapsedInMonth ⟨2025, 10, 11⟩ ⟨2025, 10⟩
    ∧ projectedSpendingOf ⟨2025, 10, 11⟩ ⟨2025, 10⟩ []
        = .num (if ([] : List Expense).length = 0 then 0
            else totalSpent [] / (daysElapsedInMonth ⟨2025, 10, 11⟩ ⟨2025, 10⟩ : ℚ)
                  * (daysInMonth 2025 10 : ℚ)) :=
  claim_C1_projected ⟨2025, 10, 11⟩ ⟨2025, 10⟩ [] (by norm_num)

/-- C5 counterexample: on input with an empty description AND an invalid
amount (`Number` coercion NaN, as for the text `"abc"`), the handler fails
with `EmptyDescription`, not `InvalidAmount` — so "fails with
`InvalidAmount` exactly when the amount does not parse or is ≤ 0" is false
as a biconditional. -/
theorem claim_C5_counterexample :
    amountInvalid BNum.nan = true
    ∧ (handleSubmit initState "" BNum.nan Category.Food "2024-06-01" "" "id1").1
        ≠ SubmitResult.errorInvalidAmount := by
  exact ⟨rfl, by decide⟩

/-- C5 amended: the handler fails with `EmptyDescription` exactly when the
trimmed description is empty; it fails with `InvalidAmount` exactly when the
trimmed description is non-empty AND the amount coercion is NaN or ≤ 0 (the
description check runs first); and on any failure the state (expense
collection and budget) is left unchanged. -/
theorem claim_C5_validate (st : AppState) (d : String) (a : BNum)
    (c : Category) (dt n newId : String) :
    ((handleSubmit st d a c dt n newId).1 = .errorEmptyDescription
        ↔ jsTrim d = "")
    ∧ ((handleSubmit st d a c dt n newId).1 = .errorInvalidAmount
        ↔ (jsTrim d ≠ "" ∧ amountInvalid a = true))
    ∧ (((handleSubmit st d a c dt n newId).1 = .errorEmptyDescription
          ∨ (handleSubmit st d a c dt n newId).1 = .errorInvalidAmount)
        → (handleSubmit st d a c dt n newId).2 = st) := by
  unfold handleSubmit
  by_cases hd : jsTrim d = ""
  · simp [hd]
  · cases a with
    | nan => simp [hd, amountInvalid]
    | num q =>
        by_cases hq : q ≤ 0
        · simp [hd, hq, amountInvalid]
        · simp [hd, hq, amountInvalid]

/-- C5 witness: a concrete instantiation of `claim_C5_validate` — a negative
amount is rejected and leaves the state unchanged. -/
theorem claim_C5_witness :
    (handleSubmit initState "x" (BNum.num (-5)) Category.Food
        "2024-06-01" "" "id1").2 = initState :=
  (claim_C5_validate initState "x" (BNum.num (-5)) Category.Food
      "2024-06-01" "" "id1").2.2 (Or.inr (by decide))

/-- C6: for every valid add request (non-empty trimmed description, amount
coercing to a number > 0) the admitted expense has the amount rounded to 2
decimal places, the description trimmed, the notes equal to the trimmed
notes text or omitted when that is empty, and the supplied freshly generated
id; it is inserted at the front of the collection, and the existing records
and the budget are untouched. -/
theorem claim_C6_add (st : AppState) (d : String) (q : ℚ) (c : Category)
    (dt n newId : String) (hd : jsTrim d ≠ "") (hq : 0 < q) :
    handleSubmit st d (.num q) c dt n newId
      = (.added ⟨newId, jsTrim d, c, round2 q, dt,
            if jsTrim n = "" then none else some (jsTrim n)⟩,
         { st with expenses :=
             ⟨newId, jsTrim d, c, round2 q, dt,
              if jsTrim n = "" then none else some (jsTrim n)⟩ :: st.expenses }) :=
  handleSubmit_eq_added st d q c dt n newId hd (not_le.mpr hq)

/-- C6 witness: a concrete instantiation of `claim_C6_add`. -/
theorem claim_C6_witness :
    handleSubmit initState "  Coffee " (BNum.num 5) Category.Food
        "2024-06-02" " latte " "id9"
      = (.added ⟨"id9", jsTrim "  Coffee ", .Food, round2 5, "2024-06-02",
            if jsTrim " latte " = "" then none else some (jsTrim " latte ")⟩,
         { initState with expenses :=
             [⟨"id9", jsTrim "  Coffee ", .Food, round2 5, "2024-06-02",
               if jsTrim " latte " = "" then none else some (jsTrim " latte ")⟩] }) :=
  claim_C6_add initState "  Coffee " 5 Category.Food "2024-06-02" " latte " "id9"
    (by decide) (by norm_num)

/-- C3 counterexample: hydration keeps every stored record whose amount is a
number and whose id is truthy — including one with a negative amount — so
the `amount > 0` part of the invariant fails in a state reachable via load
alone. -/
theorem claim_C3_counterexample :
    ¬ StoreInvariant (load
        { expenses := StoredExpenses.records
            [⟨"a", "corrupt", .Other, some (-5), "2024-06-01", none⟩],
          budget := none }).1 := by
  decide

/-- C3 amended: the invariant (positive amounts, pairwise distinct ids) is
preserved by add — provided the generated id is fresh and the 2-decimal
rounding of the amount is still positive — and by remove; hydration only
guarantees that every loaded record has a non-empty id (it does not enforce
positive amounts or id uniqueness on stored data). -/
theorem claim_C3_invariant :
    (∀ (st : AppState) (d : String) (q : ℚ) (c : Category) (dt n newId : String),
        StoreInvariant st.expenses → (∀ e ∈ st.expenses, e.id ≠ newId) →
        0 < round2 q →
        StoreInvariant ((handleSubmit st d (.num q) c dt n newId).2).expenses)
    ∧ (∀ (es : List Expense) (rid : String),
        StoreInvariant es → StoreInvariant (handleDelete es rid))
    ∧ (∀ (s : Store), ∀ e ∈ (load s).1, e.id ≠ "") := by
  refine ⟨?_, ?_, ?_⟩
  · intro st d q c dt n newId hinv hfresh hr
    by_cases hd : jsTrim d = ""
    · unfold handleSubmit
      simpa [hd] using hinv
    · by_cases hq : q ≤ 0
      · unfold handleSubmit
        simpa [hd, hq] using hinv
      · rw [handleSubmit_eq_added st d q c dt n newId hd hq]
        constructor
        · intro x hx
          rcases List.mem_cons.mp hx with rfl | hx
          · simpa using hr
          · exact hinv.1 x hx
        · refine List.pairwise_cons.mpr ⟨?_, hinv.2⟩
          intro b hb
          exact (hfresh b hb).symm
  · intro es rid hinv
    unfold handleDelete
    refine ⟨?_, List.Pairwise.sublist (List.filter_sublist es) hinv.2⟩
    intro e he
    exact hinv.1 e (List.mem_of_mem_filter he)
  · intro s e he
    cases hs : s.expenses with
    | absent => simp [load, hydrateStep, hs, initState] at he
    | malformed => simp [load, hydrateStep, hs, initState] at he
    | records l =>
        simp only [load, hydrateStep, hs] at he
        have hmem := (sortByDateDesc_perm _).mem_iff.mp he
        rcases List.mem_filterMap.mp hmem with ⟨r, _, hr⟩
        rcases (hydrateExpense_eq_some_iff r e).mp hr with ⟨q, _, hid, he'⟩
        subst he'
        exact hid

/-- C3 witness: a concrete instantiation of the add-preservation part of
`claim_C3_invariant` — adding a 1500 expense to the empty store keeps the
invariant. -/
theorem claim_C3_witness :
    StoreInvariant ((handleSubmit initState "Rent" (BNum.num 1500)
        Category.Housing "2024-06-01" "" "id1").2).expenses :=
  claim_C3_invariant.1 initState "Rent" 1500 Category.Housing "2024-06-01" "" "id1"
    (by decide) (by decide) (by norm_num [round2])

/-- C8: load is total (never raises) and degrades softly, for every
durable-store content: an absent or malformed expense slot yields the empty
collection; a parsed record list yields exactly the records the hydration
filter keeps (as a permutation — the kept records are then re-sorted); a
record is kept precisely when its amount is a number and its id is
non-empty, and a kept record carries all stored fields over unchanged; an
absent or NaN budget slot falls back to the default 2000; a numeric budget
slot is adopted whenever the expense slot does not throw. -/
theorem claim_C8_load (s : Store) :
    ((s.expenses = .absent ∨ s.expenses = .malformed) → (load s).1 = [])
    ∧ (∀ l, s.expenses = .records l →
        List.Perm (load s).1 (l.filterMap hydrateExpense))
    ∧ (∀ r : RawExpense,
        (∃ e, hydrateExpense r = some e)
          ↔ ((∃ q, r.amountNum = some q) ∧ r.id ≠ ""))
    ∧ (∀ (r : RawExpense) (e : Expense), hydrateExpense r = some e →
        e.id = r.id ∧ e.description = r.description ∧ e.category = r.category
          ∧ r.amountNum = some e.amount ∧ e.date = r.date ∧ e.notes = r.notes)
    ∧ ((s.budget = none ∨ s.budget = some .nan) → (load s).2 = 2000)
    ∧ (∀ q, s.budget = some (.num q) → s.expenses ≠ .malformed →
        (load s).2 = q) := by
  refine ⟨?_, ?_, ?_, ?_, ?_, ?_⟩
  · rintro (h | h) <;> simp [load, hydrateStep, h, initState]
  · intro l hl
    simp only [load, hydrateStep, hl]
    exact sortByDateDesc_perm _
  · intro r
    constructor
    · rintro ⟨e, he⟩
      rcases (hydrateExpense_eq_some_iff r e).mp he with ⟨q, hq, hid, _⟩
      exact ⟨⟨q, hq⟩, hid⟩
    · rintro ⟨⟨q, hq⟩, hid⟩
      exact ⟨⟨r.id, r.description, r.category, q, r.date, r.notes⟩,
        (hydrateExpense_eq_some_iff r _).mpr ⟨q, hq, hid, rfl⟩⟩
  · intro r e he
    rcases (hydrateExpense_eq_some_iff r e).mp he with ⟨q, hq, hid, rfl⟩
    exact ⟨rfl, rfl, rfl, by rw [hq], rfl, rfl⟩
  · intro h
    cases hs : s.expenses with
    | malformed => simp [load, hydrateStep, hs, initState]
    | absent =>
        rcases h with h | h <;>
          simp [load, hydrateStep, hs, initState, applyBudget, h]
    | records l =>
        rcases h with h | h <;>
          simp [load, hydrateStep, hs, initState, applyBudget, h]
  · intro q hq hne
    cases hs : s.expenses with
    | malformed => exact absurd hs hne
    | absent => simp [load, hydrateStep, hs, initState, applyBudget, hq]
    | records l => simp [load, hydrateStep, hs, initState, applyBudget, hq]

/-- C8 witness: concrete instantiations of `claim_C8_load` — a malformed
expense slot hydrates to the empty collection, and a NaN budget slot falls
back to 2000. -/
theorem claim_C8_witness :
    (load { expenses := StoredExpenses.malformed,
            budget := some (BNum.num 7) }).1 = []
    ∧ (load { expenses := StoredExpenses.absent,
              budget := some BNum.nan }).2 = 2000 :=
  ⟨(claim_C8_load _).1 (Or.inr rfl),
   (claim_C8_load _).2.2.2.2.1 (Or.inr rfl)⟩

/-- C9: load happens-before the first save — in every execution trace that
contains no hydration event, the durable store is left completely untouched
(the save effects bail out on the `isReady` flag, which only hydration
sets), so no save can precede the completion of the initial load. -/
theorem claim_C9_load_before_save (t : List Event) (s0 : Store)
    (h : Event.hydrate ∉ t) :
    (run (initState, s0) t).2 = s0 :=
  (run_no_hydrate t initState s0 rfl h).1

/-- C10 witness: a concrete instantiation of the re-sort part of
`claim_C10_load_sorted` on a stored two-record list. -/
theorem claim_C10_witness :
    List.Perm
      (load { expenses := StoredExpenses.records
                [⟨"a", "x", .Other, some 3, "2024-06-01", none⟩,
                 ⟨"b", "y", .Food, some 4, "2024-06-02", none⟩],
              budget := none }).1
      (List.filterMap hydrateExpense
        [⟨"a", "x", .Other, some 3, "2024-06-01", none⟩,
         ⟨"b", "y", .Food, some 4, "2024-06-02", none⟩]) :=
  (claim_C10_load_sorted _).2 _ rfl

/-- C9 witness: a concrete instantiation of `claim_C9_load_before_save` — a
trace of save effects and user actions without hydration writes nothing. -/
theorem claim_C9_witness :
    (run (initState, { expenses := StoredExpenses.absent, budget := none })
        [Event.saveExpenses, Event.saveBudget,
         Event.addExpense "Rent" (BNum.num 1500) Category.Housing
           "2024-06-01" "" "id1",
         Event.saveExpenses, Event.setBudget 100, Event.saveBudget]).2
      = { expenses := StoredExpenses.absent, budget := none } :=
  claim_C9_load_before_save _ _ (by decide)

end ExpenseDashboard
